import Mathlib

/-!
Verification of the fuzzy club-name resolution pipeline of `src/main.py`.

The Python program resolves a transfer's source-club name to a UEFA club
coefficient for a season, via: a per-run match cache (`_MATCH_CACHE`), a table
of human-approved manual overrides (`MANUAL_MAP`), exact lookup in the
per-season ranking table (`uefa_rankings`), and a fuzzy-name fallback
(`rapidfuzz.process.extractOne` with the `fuzz.WRatio` scorer), logging every
uncertain or failed resolution to `LOG_RECORDS`.

Modelling choices:
* Python dicts become association lists (`dictGet` / `dictInsert`), which keeps
  first-match lookup, overwrite-on-assignment and insertion-order iteration,
  exactly the observable dict behaviour the program relies on.
* Coefficients and similarity scores (floats in Python, on a 0-100 scale for
  scores) become `Rat`; the similarity scorer itself is third-party library
  code (rapidfuzz `fuzz.WRatio`), not code of this repository, so the resolver
  is parameterised by an arbitrary scorer function `String → String → Rat`.
* `process.extractOne` (with its default score cutoff of 0) returns the
  first-encountered candidate of maximal score, or `none` when there are no
  candidates; `extractOne` below models exactly that.
* The global mutable state (`_MATCH_CACHE`, `LOG_RECORDS`) becomes an explicit
  `ResolverState` threaded through `getUefaCoeff`.
-/

/-- One entry of `LOG_RECORDS`: the dict appended by `_get_uefa_coeff`
(season, club_query, reason, matched_name, score, threshold). -/
structure AuditRecord where
  season : String
  club_query : String
  reason : String
  matched_name : Option String
  score : Option Rat
  threshold : Int
deriving DecidableEq, Repr

/-- The mutable state of one run: `_MATCH_CACHE` (keyed by (season, club),
value a coefficient or `None`) and `LOG_RECORDS`. -/
structure ResolverState where
  cache : List ((String × String) × Option Rat)
  log : List AuditRecord
deriving DecidableEq, Repr

/-- `uefa_rankings`: season key → (club name → coefficient). -/
abbrev Rankings := List (String × List (String × Rat))

/-- `MANUAL_MAP`: (season, club_query) → canonical club name. -/
abbrev ManualMap := List ((String × String) × String)

/-- Python `d.get(k)` / `k in d` on a dict modelled as an association list. -/
def dictGet {α β : Type} [DecidableEq α] : List (α × β) → α → Option β
  | [], _ => none
  | (k, v) :: rest, key => if k = key then some v else dictGet rest key

/-- Python `d[k] = v`: overwrite in place when the key exists, else append. -/
def dictInsert {α β : Type} [DecidableEq α] : List (α × β) → α → β → List (α × β)
  | [], key, val => [(key, val)]
  | (k, v) :: rest, key, val =>
      if k = key then (key, val) :: rest else (k, v) :: dictInsert rest key val

/-- Tail of `rapidfuzz.process.extractOne`'s scan: keep the current best
(candidate, score) pair, replacing it only on a strictly higher score, so the
first-encountered candidate wins ties. -/
def extractOneAux (scorer : String → String → Rat) (q : String) :
    String × Rat → List String → String × Rat
  | best, [] => best
  | best, c :: rest =>
      let s := scorer q c
      if best.2 < s then extractOneAux scorer q (c, s) rest
      else extractOneAux scorer q best rest

/-- `process.extractOne(club, season_table.keys(), scorer=...)` with the default
score cutoff: `None` exactly when there are no candidates, otherwise the
first-encountered candidate of maximal score together with its score. -/
def extractOne (scorer : String → String → Rat) (q : String) :
    List String → Option (String × Rat)
  | [] => none
  | c :: rest => some (extractOneAux scorer q (c, scorer q c) rest)

/-- Lines 83-84 of `src/main.py`: `season_table = uefa_rankings.get(season)`
followed by `if season_table and manual_target in season_table`, with the
coefficient lookup `season_table[manual_target]` of the success branch.
A missing season (`None`) and an empty season table are both falsy. -/
def manualHit (rankings : Rankings) (season target : String) : Option Rat :=
  match dictGet rankings season with
  | some tbl => if tbl.isEmpty then none else dictGet tbl target
  | none => none

/-- Lines 100-162 of `src/main.py`: the part of `_get_uefa_coeff` after the
manual-override block — season existence check, direct hit, fuzzy search. -/
def resolveRest (rankings : Rankings) (scorer : String → String → Rat)
    (season club : String) (threshold : Int) (st : ResolverState) :
    Option Rat × ResolverState :=
  let key := (season, club)
  match dictGet rankings season with
  | none =>
      (none,
        ⟨dictInsert st.cache key none,
         st.log ++ [⟨season, club, "season_missing", none, none, threshold⟩]⟩)
  | some seasonTable =>
      match dictGet seasonTable club with
      | some coeff => (some coeff, ⟨dictInsert st.cache key (some coeff), st.log⟩)
      | none =>
          match extractOne scorer club (seasonTable.map Prod.fst) with
          | none =>
              (none,
                ⟨dictInsert st.cache key none,
                 st.log ++ [⟨season, club, "no_candidate", none, none, threshold⟩]⟩)
          | some (matchedName, score) =>
              if (threshold : Rat) ≤ score then
                let coeff := dictGet seasonTable matchedName
                (coeff, ⟨dictInsert st.cache key coeff, st.log⟩)
              else
                (none,
                  ⟨dictInsert st.cache key none,
                   st.log ++
                     [⟨season, club, "below_threshold", some matchedName,
                       some score, threshold⟩]⟩)

/-- `_get_uefa_coeff(season, club, threshold)` of `src/main.py` (lines 59-162):
cache check, manual override (returning on a successful override, logging
`manual_target_missing` and falling through otherwise), then `resolveRest`.
Returns the Python return value together with the updated global state. -/
def getUefaCoeff (rankings : Rankings) (manualMap : ManualMap)
    (scorer : String → String → Rat) (season club : String) (threshold : Int)
    (st : ResolverState) : Option Rat × ResolverState :=
  let key := (season, club)
  match dictGet st.cache key with
  | some v => (v, st)
  | none =>
      match dictGet manualMap key with
      | some manualTarget =>
          match manualHit rankings season manualTarget with
          | some coeff =>
              (some coeff, ⟨dictInsert st.cache key (some coeff), st.log⟩)
          | none =>
              resolveRest rankings scorer season club threshold
                ⟨st.cache,
                 st.log ++
                   [⟨season, club, "manual_target_missing", some manualTarget,
                     none, threshold⟩]⟩
      | none => resolveRest rankings scorer season club threshold st

/-- Records appended by the manual-override block when the call falls through
past it: one `manual_target_missing` record when an override exists for the
key, nothing when it does not. -/
def manualFallthroughLog (manualMap : ManualMap) (season club : String)
    (threshold : Int) : List AuditRecord :=
  match dictGet manualMap (season, club) with
  | some t => [⟨season, club, "manual_target_missing", some t, none, threshold⟩]
  | none => []

section DictLemmas

variable {α β : Type} [DecidableEq α]

theorem dictGet_dictInsert_self (d : List (α × β)) (k : α) (v : β) :
    dictGet (dictInsert d k v) k = some v := by
  induction d with
  | nil => simp [dictGet, dictInsert]
  | cons p rest ih =>
      obtain ⟨pk, pv⟩ := p
      by_cases h : pk = k
      · simp [dictGet, dictInsert, h]
      · simp [dictGet, dictInsert, h, ih]

theorem dictGet_dictInsert_ne (d : List (α × β)) (k k' : α) (v : β)
    (h : k ≠ k') : dictGet (dictInsert d k v) k' = dictGet d k' := by
  induction d with
  | nil => simp [dictGet, dictInsert, h]
  | cons p rest ih =>
      obtain ⟨pk, pv⟩ := p
      by_cases hpk : pk = k
      · subst hpk
        simp [dictGet, dictInsert, h]
      · simp only [dictInsert, if_neg hpk]
        by_cases hpk' : pk = k'
        · simp [dictGet, hpk']
        · simp [dictGet, hpk', ih]

theorem dictGet_nonempty {d : List (α × β)} {k : α} {v : β}
    (h : dictGet d k = some v) : d.isEmpty = false := by
  cases d with
  | nil => simp [dictGet] at h
  | cons p rest => simp [List.isEmpty]

theorem dictGet_isSome_of_mem_keys {d : List (α × β)} {k : α}
    (h : k ∈ d.map Prod.fst) : ∃ v, dictGet d k = some v := by
  induction d with
  | nil => simp at h
  | cons p rest ih =>
      obtain ⟨pk, pv⟩ := p
      by_cases hk : pk = k
      · exact ⟨pv, by simp [dictGet, hk]⟩
      · simp only [List.map_cons, List.mem_cons] at h
        rcases h with h | h
        · exact absurd h.symm hk
        · obtain ⟨v, hv⟩ := ih h
          exact ⟨v, by simp [dictGet, hk, hv]⟩

end DictLemmas

theorem extractOneAux_fst_mem (scorer : String → String → Rat) (q : String)
    (cs : List String) (best : String × Rat) :
    (extractOneAux scorer q best cs).1 = best.1 ∨
      (extractOneAux scorer q best cs).1 ∈ cs := by
  induction cs generalizing best with
  | nil => simp [extractOneAux]
  | cons c rest ih =>
      simp only [extractOneAux]
      by_cases h : best.2 < scorer q c
      · simp only [if_pos h]
        rcases ih (c, scorer q c) with h' | h'
        · exact Or.inr (by simp [h'])
        · exact Or.inr (List.mem_cons_of_mem _ h')
      · simp only [if_neg h]
        rcases ih best with h' | h'
        · exact Or.inl h'
        · exact Or.inr (List.mem_cons_of_mem _ h')

theorem extractOne_fst_mem {scorer : String → String → Rat} {q : String}
    {cs : List String} {m : String} {s : Rat}
    (h : extractOne scorer q cs = some (m, s)) : m ∈ cs := by
  cases cs with
  | nil => simp [extractOne] at h
  | cons c rest =>
      simp only [extractOne, Option.some.injEq] at h
      rcases extractOneAux_fst_mem scorer q rest (c, scorer q c) with h' | h'
      · rw [h] at h'
        simp only at h'
        rw [h']
        exact List.mem_cons_self c rest
      · rw [h] at h'
        exact List.mem_cons_of_mem _ h'

theorem resolveRest_caches_result (rankings : Rankings)
    (scorer : String → String → Rat) (season club : String) (threshold : Int)
    (st : ResolverState) :
    dictGet (resolveRest rankings scorer season club threshold st).2.cache
        (season, club)
      = some (resolveRest rankings scorer season club threshold st).1 := by
  unfold resolveRest
  cases hr : dictGet rankings season with
  | none => simp [hr, dictGet_dictInsert_self]
  | some tbl =>
      cases hd : dictGet tbl club with
      | some c => simp [hr, hd, dictGet_dictInsert_self]
      | none =>
          cases he : extractOne scorer club (tbl.map Prod.fst) with
          | none => simp [hr, hd, he, dictGet_dictInsert_self]
          | some ms =>
              obtain ⟨m, s⟩ := ms
              by_cases ht : (threshold : Rat) ≤ s
              · simp [hr, hd, he, ht, dictGet_dictInsert_self]
              · simp [hr, hd, he, ht, dictGet_dictInsert_self]

theorem getUefaCoeff_caches_result (rankings : Rankings) (manualMap : ManualMap)
    (scorer : String → String → Rat) (season club : String) (threshold : Int)
    (st : ResolverState) :
    dictGet (getUefaCoeff rankings manualMap scorer season club threshold
        st).2.cache (season, club)
      = some (getUefaCoeff rankings manualMap scorer season club threshold
          st).1 := by
  unfold getUefaCoeff
  cases hc : dictGet st.cache (season, club) with
  | some v => simp [hc]
  | none =>
      cases hm : dictGet manualMap (season, club) with
      | none => simp [hc, hm, resolveRest_caches_result]
      | some t =>
          cases hh : manualHit rankings season t with
          | some c => simp [hc, hm, hh, dictGet_dictInsert_self]
          | none => simp [hc, hm, hh, resolveRest_caches_result]

theorem getUefaCoeff_cached_hit {rankings : Rankings} {manualMap : ManualMap}
    {scorer : String → String → Rat} {season club : String} {threshold : Int}
    {st : ResolverState} {v : Option Rat}
    (h : dictGet st.cache (season, club) = some v) :
    getUefaCoeff rankings manualMap scorer season club threshold st = (v, st) := by
  unfold getUefaCoeff
  simp [h]

/-- C3: for every (season, queried name) pair, a second call to the resolver
within the same run is answered purely from the cache: it returns the result
pair of the first call unchanged, so the result is identical and no new audit
record or cache entry is produced by the second call. -/
theorem resolve_second_call_cached (rankings : Rankings) (manualMap : ManualMap)
    (scorer : String → String → Rat) (season club : String) (threshold : Int)
    (st : ResolverState) :
    getUefaCoeff rankings manualMap scorer season club threshold
        (getUefaCoeff rankings manualMap scorer season club threshold st).2
      = getUefaCoeff rankings manualMap scorer season club threshold st :=
  getUefaCoeff_cached_hit
    (getUefaCoeff_caches_result rankings manualMap scorer season club
      threshold st)

/-- C10: the cache key is only (season, queried name) and never includes the
threshold: a second call for an already-resolved pair, with any other
threshold, returns exactly the value cached by the first call and changes
nothing, so the second threshold has no effect. -/
theorem cache_key_ignores_threshold (rankings : Rankings)
    (manualMap : ManualMap) (scorer : String → String → Rat)
    (season club : String) (t1 t2 : Int) (st : ResolverState) :
    getUefaCoeff rankings manualMap scorer season club t2
        (getUefaCoeff rankings manualMap scorer season club t1 st).2
      = ((getUefaCoeff rankings manualMap scorer season club t1 st).1,
         (getUefaCoeff rankings manualMap scorer season club t1 st).2) :=
  getUefaCoeff_cached_hit
    (getUefaCoeff_caches_result rankings manualMap scorer season club t1 st)

/-- C1: a manual override whose canonical target is present in the season's
ranking table makes the resolver return that target's coefficient, cache it,
and append no audit record — for every ranking table, in particular also when
the queried name itself is present verbatim as a key of the season's table. -/
theorem manual_override_priority (rankings : Rankings) (manualMap : ManualMap)
    (scorer : String → String → Rat) (season club : String) (threshold : Int)
    (st : ResolverState) (target : String) (tbl : List (String × Rat))
    (coeff : Rat)
    (hcache : dictGet st.cache (season, club) = none)
    (hover : dictGet manualMap (season, club) = some target)
    (htbl : dictGet rankings season = some tbl)
    (hhit : dictGet tbl target = some coeff) :
    getUefaCoeff rankings manualMap scorer season club threshold st
      = (some coeff,
          ⟨dictInsert st.cache (season, club) (some coeff), st.log⟩) := by
  have hne : tbl.isEmpty = false := dictGet_nonempty hhit
  have hmh : manualHit rankings season target = some coeff := by
    simp [manualHit, htbl, hne, hhit]
  unfold getUefaCoeff
  simp [hcache, hover, hmh]

/-- Witness for C1: in season 24/25 the table holds Real Madrid at 381 and
Girona FC at 200, and an approved override maps the query "Girona FC" to
"Real Madrid"; the resolver returns 381 (the override target's coefficient),
not 200 (the verbatim hit), and logs nothing. -/
theorem manual_override_priority_witness :
    dictGet (⟨[], []⟩ : ResolverState).cache ("24/25", "Girona FC") = none
    ∧ dictGet [(("24/25", "Girona FC"), "Real Madrid")]
        ("24/25", "Girona FC") = some "Real Madrid"
    ∧ dictGet [("24/25", [("Real Madrid", (381 : Rat)), ("Girona FC", 200)])]
        "24/25" = some [("Real Madrid", (381 : Rat)), ("Girona FC", 200)]
    ∧ dictGet [("Real Madrid", (381 : Rat)), ("Girona FC", 200)]
        "Real Madrid" = some 381
    ∧ getUefaCoeff
        [("24/25", [("Real Madrid", (381 : Rat)), ("Girona FC", 200)])]
        [(("24/25", "Girona FC"), "Real Madrid")] (fun _ _ => 0)
        "24/25" "Girona FC" 90 ⟨[], []⟩
      = (some 381, ⟨[(("24/25", "Girona FC"), some 381)], []⟩) :=
  ⟨rfl, by decide, by decide, by decide,
    manual_override_priority
      [("24/25", [("Real Madrid", (381 : Rat)), ("Girona FC", 200)])]
      [(("24/25", "Girona FC"), "Real Madrid")] (fun _ _ => 0)
      "24/25" "Girona FC" 90 ⟨[], []⟩ "Real Madrid"
      [("Real Madrid", (381 : Rat)), ("Girona FC", 200)] 381
      rfl (by decide) (by decide) (by decide)⟩

/-- C5: when a manual override exists for the key but its canonical target is
unavailable (season table missing, empty, or target not a key of it), the
resolver appends one `manual_target_missing` record carrying the target name
and no score, does not return, and then behaves exactly like the
post-override pipeline (season check, exact hit, fuzzy search) — which is
precisely what a call with no override for the key runs. -/
theorem manual_target_missing_fallthrough (rankings : Rankings)
    (manualMap : ManualMap) (scorer : String → String → Rat)
    (season club : String) (threshold : Int) (st : ResolverState)
    (target : String)
    (hcache : dictGet st.cache (season, club) = none)
    (hover : dictGet manualMap (season, club) = some target)
    (hmiss : manualHit rankings season target = none) :
    getUefaCoeff rankings manualMap scorer season club threshold st
      = resolveRest rankings scorer season club threshold
          ⟨st.cache,
           st.log ++ [⟨season, club, "manual_target_missing", some target,
             none, threshold⟩]⟩
    ∧ ∀ (mm2 : ManualMap) (st2 : ResolverState),
        dictGet mm2 (season, club) = none →
        dictGet st2.cache (season, club) = none →
        getUefaCoeff rankings mm2 scorer season club threshold st2
          = resolveRest rankings scorer season club threshold st2 := by
  constructor
  · unfold getUefaCoeff
    simp [hcache, hover, hmiss]
  · intro mm2 st2 h1 h2
    unfold getUefaCoeff
    simp [h1, h2]

/-- Witness for C5: an override for ("24/25", "FCB") targets "Gone", which is
not in the 24/25 table; the call logs `manual_target_missing` and continues
into the post-override pipeline from the logged state. -/
theorem manual_target_missing_fallthrough_witness :
    dictGet (⟨[], []⟩ : ResolverState).cache ("24/25", "FCB") = none
    ∧ dictGet [(("24/25", "FCB"), "Gone")] ("24/25", "FCB") = some "Gone"
    ∧ manualHit [("24/25", [("Real Madrid", (381 : Rat))])] "24/25" "Gone"
        = none
    ∧ getUefaCoeff [("24/25", [("Real Madrid", (381 : Rat))])]
        [(("24/25", "FCB"), "Gone")] (fun _ _ => 50) "24/25" "FCB" 90 ⟨[], []⟩
      = resolveRest [("24/25", [("Real Madrid", (381 : Rat))])] (fun _ _ => 50)
          "24/25" "FCB" 90
          ⟨[], [⟨"24/25", "FCB", "manual_target_missing", some "Gone", none,
            90⟩]⟩ :=
  ⟨rfl, by decide, by decide,
    (manual_target_missing_fallthrough
      [("24/25", [("Real Madrid", (381 : Rat))])] [(("24/25", "FCB"), "Gone")]
      (fun _ _ => 50) "24/25" "FCB" 90 ⟨[], []⟩ "Gone"
      rfl (by decide) (by decide)).1⟩

/-- C4: resolving against a season absent from the ranking source returns
unresolved, caches unresolved under (season, queried name), and appends a
`season_missing` record whose matched-name and score fields are `none` —
preceded only by the `manual_target_missing` record when an (necessarily
unsuccessful) override exists for the key. -/
theorem season_missing_unresolved (rankings : Rankings) (manualMap : ManualMap)
    (scorer : String → String → Rat) (season club : String) (threshold : Int)
    (st : ResolverState)
    (hcache : dictGet st.cache (season, club) = none)
    (hseason : dictGet rankings season = none) :
    getUefaCoeff rankings manualMap scorer season club threshold st
      = (none,
          ⟨dictInsert st.cache (season, club) none,
           st.log ++ manualFallthroughLog manualMap season club threshold
                  ++ [⟨season, club, "season_missing", none, none,
                        threshold⟩]⟩) := by
  unfold getUefaCoeff
  cases hm : dictGet manualMap (season, club) with
  | none =>
      simp [hcache, hm, manualFallthroughLog, resolveRest, hseason]
  | some t =>
      have hmh : manualHit rankings season t = none := by
        simp [manualHit, hseason]
      simp [hcache, hm, hmh, manualFallthroughLog, resolveRest, hseason]

/-- Witness for C4: season "99/99" is not in the ranking source; the query
("99/99", "Arsenal") yields unresolved, caches unresolved, and logs exactly
one `season_missing` record with no matched name and no score. -/
theorem season_missing_unresolved_witness :
    dictGet (⟨[], []⟩ : ResolverState).cache ("99/99", "Arsenal") = none
    ∧ dictGet [("24/25", [("Real Madrid", (381 : Rat))])] "99/99" = none
    ∧ getUefaCoeff [("24/25", [("Real Madrid", (381 : Rat))])] []
        (fun _ _ => 50) "99/99" "Arsenal" 90 ⟨[], []⟩
      = (none,
          ⟨[(("99/99", "Arsenal"), none)],
           [⟨"99/99", "Arsenal", "season_missing", none, none, 90⟩]⟩) :=
  ⟨rfl, by decide,
    season_missing_unresolved [("24/25", [("Real Madrid", (381 : Rat))])] []
      (fun _ _ => 50) "99/99" "Arsenal" 90 ⟨[], []⟩ rfl (by decide)⟩

theorem resolveRest_fuzzy (rankings : Rankings)
    (scorer : String → String → Rat) (season club : String) (threshold : Int)
    (st : ResolverState) (tbl : List (String × Rat)) (m : String) (s : Rat)
    (htbl : dictGet rankings season = some tbl)
    (hdirect : dictGet tbl club = none)
    (hbest : extractOne scorer club (tbl.map Prod.fst) = some (m, s)) :
    ((threshold : Rat) ≤ s →
      ∃ c, dictGet tbl m = some c ∧
        resolveRest rankings scorer season club threshold st
          = (some c, ⟨dictInsert st.cache (season, club) (some c), st.log⟩))
    ∧ (s < (threshold : Rat) →
      resolveRest rankings scorer season club threshold st
        = (none,
            ⟨dictInsert st.cache (season, club) none,
             st.log ++ [⟨season, club, "below_threshold", some m, some s,
               threshold⟩]⟩)) := by
  obtain ⟨c, hc⟩ := dictGet_isSome_of_mem_keys (extractOne_fst_mem hbest)
  constructor
  · intro ht
    refine ⟨c, hc, ?_⟩
    unfold resolveRest
    simp [htbl, hdirect, hbest, ht, hc]
  · intro ht
    have ht' : ¬ (threshold : Rat) ≤ s := not_le.mpr ht
    unfold resolveRest
    simp [htbl, hdirect, hbest, ht']

/-- C2: for every uncached resolution that falls past the manual-override
block and reaches fuzzy search with a best candidate (m, s): when the best
score s is at least the threshold (the boundary s = threshold included), the
resolver returns that candidate's coefficient and appends no record beyond
the override block's own fallthrough record; when s is strictly below the
threshold, it returns unresolved and appends exactly one `below_threshold`
record carrying the candidate's name and score. -/
theorem fuzzy_threshold_boundary (rankings : Rankings) (manualMap : ManualMap)
    (scorer : String → String → Rat) (season club : String) (threshold : Int)
    (st : ResolverState) (tbl : List (String × Rat)) (m : String) (s : Rat)
    (hcache : dictGet st.cache (season, club) = none)
    (hmiss : ∀ t, dictGet manualMap (season, club) = some t →
      manualHit rankings season t = none)
    (htbl : dictGet rankings season = some tbl)
    (hdirect : dictGet tbl club = none)
    (hbest : extractOne scorer club (tbl.map Prod.fst) = some (m, s)) :
    ((threshold : Rat) ≤ s →
      ∃ c, dictGet tbl m = some c ∧
        getUefaCoeff rankings manualMap scorer season club threshold st
          = (some c,
              ⟨dictInsert st.cache (season, club) (some c),
               st.log ++ manualFallthroughLog manualMap season club
                 threshold⟩))
    ∧ (s < (threshold : Rat) →
      getUefaCoeff rankings manualMap scorer season club threshold st
        = (none,
            ⟨dictInsert st.cache (season, club) none,
             st.log ++ manualFallthroughLog manualMap season club threshold
                    ++ [⟨season, club, "below_threshold", some m, some s,
                          threshold⟩]⟩)) := by
  cases hm : dictGet manualMap (season, club) with
  | none =>
      have hred :
          getUefaCoeff rankings manualMap scorer season club threshold st
            = resolveRest rankings scorer season club threshold st := by
        unfold getUefaCoeff
        simp [hcache, hm]
      obtain ⟨h1, h2⟩ := resolveRest_fuzzy rankings scorer season club
        threshold st tbl m s htbl hdirect hbest
      constructor
      · intro ht
        obtain ⟨c, hc, he⟩ := h1 ht
        exact ⟨c, hc, by simp [hred, he, manualFallthroughLog, hm]⟩
      · intro ht
        simp [hred, h2 ht, manualFallthroughLog, hm]
  | some t =>
      have hred :
          getUefaCoeff rankings manualMap scorer season club threshold st
            = resolveRest rankings scorer season club threshold
                ⟨st.cache,
                 st.log ++ [⟨season, club, "manual_target_missing", some t,
                   none, threshold⟩]⟩ := by
        unfold getUefaCoeff
        simp [hcache, hm, hmiss t hm]
      obtain ⟨h1, h2⟩ := resolveRest_fuzzy rankings scorer season club
        threshold
        ⟨st.cache,
         st.log ++ [⟨season, club, "manual_target_missing", some t, none,
           threshold⟩]⟩ tbl m s htbl hdirect hbest
      constructor
      · intro ht
        obtain ⟨c, hc, he⟩ := h1 ht
        exact ⟨c, hc, by simp [hred, he, manualFallthroughLog, hm]⟩
      · intro ht
        simp [hred, h2 ht, manualFallthroughLog, hm]

/-- Witness for C2, exercising the inclusive boundary: season 24/25 holds only
"Real Madrid" at 381, the scorer gives the query "Real Madric" exactly the
score 90 against "Real Madrid", and the threshold is 90; the resolver accepts
the fuzzy match and returns 381 with an empty log. -/
theorem fuzzy_threshold_boundary_witness :
    dictGet (⟨[], []⟩ : ResolverState).cache ("24/25", "Real Madric") = none
    ∧ dictGet [("24/25", [("Real Madrid", (381 : Rat))])] "24/25"
        = some [("Real Madrid", (381 : Rat))]
    ∧ dictGet [("Real Madrid", (381 : Rat))] "Real Madric" = none
    ∧ extractOne (fun _ c => if c = "Real Madrid" then (90 : Rat) else 10)
        "Real Madric" ([("Real Madrid", (381 : Rat))].map Prod.fst)
        = some ("Real Madrid", 90)
    ∧ ((90 : Int) : Rat) ≤ (90 : Rat)
    ∧ getUefaCoeff [("24/25", [("Real Madrid", (381 : Rat))])] []
        (fun _ c => if c = "Real Madrid" then (90 : Rat) else 10)
        "24/25" "Real Madric" 90 ⟨[], []⟩
      = (some 381, ⟨[(("24/25", "Real Madric"), some 381)], []⟩) := by
  refine ⟨rfl, by decide, by decide, by decide, by norm_num, ?_⟩
  obtain ⟨c, hc, he⟩ :=
    (fuzzy_threshold_boundary [("24/25", [("Real Madrid", (381 : Rat))])] []
      (fun _ c => if c = "Real Madrid" then (90 : Rat) else 10)
      "24/25" "Real Madric" 90 ⟨[], []⟩ [("Real Madrid", (381 : Rat))]
      "Real Madrid" 90 rfl (fun t ht => by simp [dictGet] at ht)
      (by decide) (by decide) (by decide)).1 (by norm_num)
  have hc' : c = (381 : Rat) := by
    have : dictGet [("Real Madrid", (381 : Rat))] "Real Madrid"
        = some (381 : Rat) := by decide
    rw [this] at hc
    exact (Option.some.injEq _ _).mp hc.symm
  rw [hc'] at he
  exact he

/-- A coefficient value that occurs in some season table of the ranking
source. -/
def coeffInRankings (rankings : Rankings) (c : Rat) : Prop :=
  ∃ season tbl name, dictGet rankings season = some tbl
    ∧ dictGet tbl name = some c

/-- Cache well-formedness: every coefficient stored in `_MATCH_CACHE` came
from the ranking source. Holds trivially for the empty cache the run starts
with. -/
def cacheWF (rankings : Rankings)
    (cache : List ((String × String) × Option Rat)) : Prop :=
  ∀ k c, dictGet cache k = some (some c) → coeffInRankings rankings c

theorem cacheWF_insert_none {rankings : Rankings}
    {cache : List ((String × String) × Option Rat)}
    (h : cacheWF rankings cache) (k : String × String) :
    cacheWF rankings (dictInsert cache k none) := by
  intro k' c hk
  by_cases hkk : k = k'
  · subst hkk
    rw [dictGet_dictInsert_self] at hk
    cases hk
  · rw [dictGet_dictInsert_ne _ _ _ _ hkk] at hk
    exact h k' c hk

theorem cacheWF_insert_some {rankings : Rankings}
    {cache : List ((String × String) × Option Rat)} {c : Rat}
    (h : cacheWF rankings cache) (hc : coeffInRankings rankings c)
    (k : String × String) :
    cacheWF rankings (dictInsert cache k (some c)) := by
  intro k' c' hk
  by_cases hkk : k = k'
  · subst hkk
    rw [dictGet_dictInsert_self] at hk
    obtain rfl : c = c' := by injection hk with h'; injection h'
    exact hc
  · rw [dictGet_dictInsert_ne _ _ _ _ hkk] at hk
    exact h k' c' hk

theorem resolveRest_total_and_sound (rankings : Rankings)
    (scorer : String → String → Rat) (season club : String) (threshold : Int)
    (st : ResolverState) (hwf : cacheWF rankings st.cache) :
    ((resolveRest rankings scorer season club threshold st).1 = none
      ∨ ∃ c, (resolveRest rankings scorer season club threshold st).1 = some c
          ∧ coeffInRankings rankings c)
    ∧ cacheWF rankings
        (resolveRest rankings scorer season club threshold st).2.cache := by
  unfold resolveRest
  cases hr : dictGet rankings season with
  | none =>
      simp only [hr]
      exact ⟨Or.inl trivial, cacheWF_insert_none hwf _⟩
  | some tbl =>
      cases hd : dictGet tbl club with
      | some c =>
          simp only [hr, hd]
          exact ⟨Or.inr ⟨c, rfl, season, tbl, club, hr, hd⟩,
            cacheWF_insert_some hwf ⟨season, tbl, club, hr, hd⟩ _⟩
      | none =>
          cases he : extractOne scorer club (tbl.map Prod.fst) with
          | none =>
              simp only [hr, hd, he]
              exact ⟨Or.inl trivial, cacheWF_insert_none hwf _⟩
          | some ms =>
              obtain ⟨m, s⟩ := ms
              obtain ⟨c, hc⟩ :=
                dictGet_isSome_of_mem_keys (extractOne_fst_mem he)
              by_cases ht : (threshold : Rat) ≤ s
              · simp only [hr, hd, he, if_pos ht, hc]
                exact ⟨Or.inr ⟨c, rfl, season, tbl, m, hr, hc⟩,
                  cacheWF_insert_some hwf ⟨season, tbl, m, hr, hc⟩ _⟩
              · simp only [hr, hd, he, if_neg ht]
                exact ⟨Or.inl trivial, cacheWF_insert_none hwf _⟩

theorem manualHit_coeffInRankings {rankings : Rankings} {season target : String}
    {c : Rat} (h : manualHit rankings season target = some c) :
    coeffInRankings rankings c := by
  unfold manualHit at h
  cases hr : dictGet rankings season with
  | none => rw [hr] at h; cases h
  | some tbl =>
      rw [hr] at h
      dsimp only at h
      by_cases he : tbl.isEmpty
      · rw [if_pos he] at h; cases h
      · rw [if_neg he] at h
        exact ⟨season, tbl, target, hr, h⟩

/-- C7: the resolver is a total function of its inputs — the embedding is a
plain (non-partial) Lean function, so no input raises — and every call on a
well-formed state returns either `none` (unresolved) or a coefficient that
occurs in the ranking table, preserving well-formedness; hence no per-row
resolution outcome in the batch can abort the run. -/
theorem resolver_total_and_sound (rankings : Rankings) (manualMap : ManualMap)
    (scorer : String → String → Rat) (season club : String) (threshold : Int)
    (st : ResolverState) (hwf : cacheWF rankings st.cache) :
    ((getUefaCoeff rankings manualMap scorer season club threshold st).1 = none
      ∨ ∃ c,
          (getUefaCoeff rankings manualMap scorer season club threshold
            st).1 = some c
          ∧ coeffInRankings rankings c)
    ∧ cacheWF rankings
        (getUefaCoeff rankings manualMap scorer season club threshold
          st).2.cache := by
  unfold getUefaCoeff
  cases hc : dictGet st.cache (season, club) with
  | some v =>
      simp only [hc]
      cases v with
      | none => exact ⟨Or.inl rfl, hwf⟩
      | some c => exact ⟨Or.inr ⟨c, rfl, hwf _ c hc⟩, hwf⟩
  | none =>
      cases hm : dictGet manualMap (season, club) with
      | none =>
          simp only [hc, hm]
          exact resolveRest_total_and_sound rankings scorer season club
            threshold st hwf
      | some t =>
          cases hh : manualHit rankings season t with
          | some c =>
              simp only [hc, hm, hh]
              exact ⟨Or.inr ⟨c, rfl, manualHit_coeffInRankings hh⟩,
                cacheWF_insert_some hwf (manualHit_coeffInRankings hh) _⟩
          | none =>
              simp only [hc, hm, hh]
              exact resolveRest_total_and_sound rankings scorer season club
                threshold
                ⟨st.cache,
                 st.log ++ [⟨season, club, "manual_target_missing", some t,
                   none, threshold⟩]⟩ hwf

/-- Witness for C7: the run's initial empty cache is well-formed, and a
resolution of ("24/25", "Arsenal") against a table holding only Real Madrid
leaves the cache well-formed. -/
theorem resolver_total_and_sound_witness :
    cacheWF [("24/25", [("Real Madrid", (381 : Rat))])]
      (⟨[], []⟩ : ResolverState).cache
    ∧ cacheWF [("24/25", [("Real Madrid", (381 : Rat))])]
        (getUefaCoeff [("24/25", [("Real Madrid", (381 : Rat))])] []
          (fun _ _ => 50) "24/25" "Arsenal" 90 ⟨[], []⟩).2.cache :=
  have h : cacheWF [("24/25", [("Real Madrid", (381 : Rat))])]
      (⟨[], []⟩ : ResolverState).cache := by
    intro k c hk
    simp [dictGet] at hk
  ⟨h, (resolver_total_and_sound [("24/25", [("Real Madrid", (381 : Rat))])] []
    (fun _ _ => 50) "24/25" "Arsenal" 90 ⟨[], []⟩ h).2⟩

/-- The reasons of records that close a resolution attempt as unresolved. -/
def isTerminalReason (r : String) : Bool :=
  r == "season_missing" || r == "no_candidate" || r == "below_threshold"

/-- Whether the manual-override block logs and falls through: an override
exists for the key but its canonical target is unavailable in the ranking
table. -/
def overrideFallsThrough (rankings : Rankings) (manualMap : ManualMap)
    (season club : String) : Bool :=
  match dictGet manualMap (season, club) with
  | some t => (manualHit rankings season t).isNone
  | none => false

theorem resolveRest_emission (rankings : Rankings)
    (scorer : String → String → Rat) (season club : String) (threshold : Int)
    (st : ResolverState) :
    ∃ app : List AuditRecord,
      (resolveRest rankings scorer season club threshold st).2.log
        = st.log ++ app
      ∧ (app.filter (fun a => isTerminalReason a.reason)).length
          = (if (resolveRest rankings scorer season club threshold st).1
                = none then 1 else 0)
      ∧ (app.filter (fun a => a.reason == "manual_target_missing")).length = 0
      ∧ app.length ≤ 1 := by
  unfold resolveRest
  cases hr : dictGet rankings season with
  | none =>
      simp only [hr]
      exact ⟨[⟨season, club, "season_missing", none, none, threshold⟩],
        rfl, by simp [isTerminalReason], by simp, by simp⟩
  | some tbl =>
      cases hd : dictGet tbl club with
      | some c =>
          simp only [hr, hd]
          exact ⟨[], by simp, by simp, by simp, by simp⟩
      | none =>
          cases he : extractOne scorer club (tbl.map Prod.fst) with
          | none =>
              simp only [hr, hd, he]
              exact ⟨[⟨season, club, "no_candidate", none, none, threshold⟩],
                rfl, by simp [isTerminalReason], by simp, by simp⟩
          | some ms =>
              obtain ⟨m, s⟩ := ms
              obtain ⟨c, hc⟩ :=
                dictGet_isSome_of_mem_keys (extractOne_fst_mem he)
              by_cases ht : (threshold : Rat) ≤ s
              · simp only [hr, hd, he, if_pos ht, hc]
                exact ⟨[], by simp, by simp, by simp, by simp⟩
              · simp only [hr, hd, he, if_neg ht]
                exact ⟨[⟨season, club, "below_threshold", some m, some s,
                    threshold⟩],
                  rfl, by simp [isTerminalReason], by simp, by simp⟩

theorem getUefaCoeff_emission (rankings : Rankings) (manualMap : ManualMap)
    (scorer : String → String → Rat) (season club : String) (threshold : Int)
    (st : ResolverState)
    (hcache : dictGet st.cache (season, club) = none) :
    ∃ app : List AuditRecord,
      (getUefaCoeff rankings manualMap scorer season club threshold st).2.log
        = st.log ++ app
      ∧ (app.filter (fun a => isTerminalReason a.reason)).length
          = (if (getUefaCoeff rankings manualMap scorer season club threshold
                st).1 = none then 1 else 0)
      ∧ (app.filter (fun a => a.reason == "manual_target_missing")).length
          = (if overrideFallsThrough rankings manualMap season club
              then 1 else 0)
      ∧ app.length ≤ 2 := by
  unfold getUefaCoeff
  cases hm : dictGet manualMap (season, club) with
  | none =>
      simp only [hcache, hm]
      obtain ⟨app, h1, h2, h3, h4⟩ := resolveRest_emission rankings scorer
        season club threshold st
      refine ⟨app, h1, h2, ?_, by omega⟩
      simpa [overrideFallsThrough, hm] using h3
  | some t =>
      cases hh : manualHit rankings season t with
      | some c =>
          simp only [hcache, hm, hh]
          refine ⟨[], by simp, by simp, ?_, by simp⟩
          simp [overrideFallsThrough, hm, hh]
      | none =>
          simp only [hcache, hm, hh]
          obtain ⟨app, h1, h2, h3, h4⟩ := resolveRest_emission rankings scorer
            season club threshold
            ⟨st.cache,
             st.log ++ [⟨season, club, "manual_target_missing", some t, none,
               threshold⟩]⟩
          have hterm : isTerminalReason "manual_target_missing" = false := by
            decide
          have hman : ("manual_target_missing" == "manual_target_missing")
              = true := by decide
          refine ⟨⟨season, club, "manual_target_missing", some t, none,
            threshold⟩ :: app, ?_, ?_, ?_, ?_⟩
          · rw [h1]
            simp
          · simpa [List.filter_cons, hterm] using h2
          · simpa [List.filter_cons, hman, overrideFallsThrough, hm, hh]
              using h3
          · simp only [List.length_cons]
            omega

/-- C6 (amended): for every uncached call, among the records the call appends
to the log there is exactly one with a terminal reason (`season_missing`,
`no_candidate` or `below_threshold`) when the call returns unresolved and
none when it returns a coefficient; additionally exactly one
`manual_target_missing` record is appended precisely when an override exists
for the key but its target is unavailable; at most two records are appended
in total. -/
theorem audit_emission_characterization (rankings : Rankings)
    (manualMap : ManualMap) (scorer : String → String → Rat)
    (season club : String) (threshold : Int) (st : ResolverState)
    (hcache : dictGet st.cache (season, club) = none) :
    (getUefaCoeff rankings manualMap scorer season club threshold st).2.log
      = st.log ++
        ((getUefaCoeff rankings manualMap scorer season club threshold
          st).2.log.drop st.log.length)
    ∧ (((getUefaCoeff rankings manualMap scorer season club threshold
          st).2.log.drop st.log.length).filter
            (fun a => isTerminalReason a.reason)).length
        = (if (getUefaCoeff rankings manualMap scorer season club threshold
              st).1 = none then 1 else 0)
    ∧ (((getUefaCoeff rankings manualMap scorer season club threshold
          st).2.log.drop st.log.length).filter
            (fun a => a.reason == "manual_target_missing")).length
        = (if overrideFallsThrough rankings manualMap season club
            then 1 else 0)
    ∧ ((getUefaCoeff rankings manualMap scorer season club threshold
          st).2.log.drop st.log.length).length ≤ 2 := by
  obtain ⟨app, h1, h2, h3, h4⟩ := getUefaCoeff_emission rankings manualMap
    scorer season club threshold st hcache
  have hdrop : (getUefaCoeff rankings manualMap scorer season club threshold
      st).2.log.drop st.log.length = app := by
    rw [h1]
    exact List.drop_left _ _
  rw [hdrop]
  exact ⟨h1, h2, h3, h4⟩

/-- Counterexample to C6 as stated: the query ("24/25", "FC Olympique") has an
approved override targeting "Gone", which is not in the 24/25 table, and its
fuzzy match scores 50 < 90; the call is not a clean direct or corrected hit
(it returns unresolved), yet it appends two audit records
(`manual_target_missing` and then `below_threshold`), not exactly one. -/
theorem audit_emission_counterexample :
    (getUefaCoeff [("24/25", [("Real Madrid", (381 : Rat))])]
        [(("24/25", "FC Olympique"), "Gone")] (fun _ _ => 50)
        "24/25" "FC Olympique" 90 ⟨[], []⟩).1 = none
    ∧ ((getUefaCoeff [("24/25", [("Real Madrid", (381 : Rat))])]
        [(("24/25", "FC Olympique"), "Gone")] (fun _ _ => 50)
        "24/25" "FC Olympique" 90 ⟨[], []⟩).2.log).length = 2 :=
  ⟨by decide, by decide⟩

/-- Witness for the amended C6 at the double-record input: the call appends
exactly one terminal record, exactly one `manual_target_missing` record, and
two records in total. -/
theorem audit_emission_characterization_witness :
    dictGet (⟨[], []⟩ : ResolverState).cache ("24/25", "Olympique") = none
    ∧ ((getUefaCoeff [("24/25", [("Real Madrid", (381 : Rat))])]
          [(("24/25", "Olympique"), "Gone")] (fun _ _ => 50)
          "24/25" "Olympique" 90 ⟨[], []⟩).2.log
        = [] ++
          ((getUefaCoeff [("24/25", [("Real Madrid", (381 : Rat))])]
            [(("24/25", "Olympique"), "Gone")] (fun _ _ => 50)
            "24/25" "Olympique" 90 ⟨[], []⟩).2.log.drop 0)
       ∧ (((getUefaCoeff [("24/25", [("Real Madrid", (381 : Rat))])]
            [(("24/25", "Olympique"), "Gone")] (fun _ _ => 50)
            "24/25" "Olympique" 90 ⟨[], []⟩).2.log.drop 0).filter
              (fun a => isTerminalReason a.reason)).length
          = (if (getUefaCoeff [("24/25", [("Real Madrid", (381 : Rat))])]
                [(("24/25", "Olympique"), "Gone")] (fun _ _ => 50)
                "24/25" "Olympique" 90 ⟨[], []⟩).1 = none then 1 else 0)
       ∧ (((getUefaCoeff [("24/25", [("Real Madrid", (381 : Rat))])]
            [(("24/25", "Olympique"), "Gone")] (fun _ _ => 50)
            "24/25" "Olympique" 90 ⟨[], []⟩).2.log.drop 0).filter
              (fun a => a.reason == "manual_target_missing")).length
          = (if overrideFallsThrough
                [("24/25", [("Real Madrid", (381 : Rat))])]
                [(("24/25", "Olympique"), "Gone")] "24/25" "Olympique"
              then 1 else 0)
       ∧ ((getUefaCoeff [("24/25", [("Real Madrid", (381 : Rat))])]
            [(("24/25", "Olympique"), "Gone")] (fun _ _ => 50)
            "24/25" "Olympique" 90 ⟨[], []⟩).2.log.drop 0).length ≤ 2) :=
  ⟨rfl, audit_emission_characterization
    [("24/25", [("Real Madrid", (381 : Rat))])]
    [(("24/25", "Olympique"), "Gone")] (fun _ _ => 50)
    "24/25" "Olympique" 90 ⟨[], []⟩ rfl⟩

/-- The Python exceptions relevant to the corrections loader of
`src/main.py`: `KeyError` from `row[col]` on a missing column, `ValueError`
from `int(x)` on a value that does not spell an integer. -/
inductive PyErr
  | keyError
  | valueError
deriving DecidableEq, Repr

/-- One cell of a corrections row: an integer, a string, or a missing value
(pandas NaN). -/
inductive CellValue
  | vint (n : Int)
  | vstr (s : String)
  | vnan
deriving DecidableEq, Repr

/-- A corrections row: column name → cell value. -/
abbrev CorrectionRow := List (String × CellValue)

/-- Digit-string parsing for the model of Python `int(str)`: all characters
must be decimal digits. -/
def parseDigits : List Char → Option Nat
  | [] => none
  | cs =>
      if cs.all (fun c => c.isDigit) then
        some (cs.foldl (fun acc c => acc * 10 + (c.toNat - 48)) 0)
      else none

/-- The model of Python `int` on a string: an optional leading minus sign
followed by decimal digits; anything else fails (raises `ValueError`). -/
def parseInt (s : String) : Option Int :=
  match s.data with
  | '-' :: rest => (parseDigits rest).map (fun n => -(n : Int))
  | cs => (parseDigits cs).map (fun n => (n : Int))

/-- Python `int(x)`: succeeds on an integer and on a string spelling an
integer, raises `ValueError` on any other string and on NaN. -/
def pyInt : CellValue → Except PyErr Int
  | .vint n => .ok n
  | .vstr s =>
      match parseInt s with
      | some n => .ok n
      | none => .error .valueError
  | .vnan => .error .valueError

/-- Python `str(x)` on a cell value. -/
def pyStr : CellValue → String
  | .vint n => toString n
  | .vstr s => s
  | .vnan => "nan"

/-- Python `row.get(col, dflt)`: never raises. -/
def rowGet (row : CorrectionRow) (col : String) (dflt : CellValue) :
    CellValue :=
  (dictGet row col).getD dflt

/-- Python `row[col]`: raises `KeyError` when the column is absent. -/
def rowIndex (row : CorrectionRow) (col : String) : Except PyErr CellValue :=
  match dictGet row col with
  | some v => .ok v
  | none => .error .keyError

/-- Lines 31-40 of `src/main.py`, one loop iteration: the `try` body checks
`int(row.get("is_actually_correct", 0)) == 1` and, when it holds, reads
`row["season"]`, `row["club_query"]`, `row["matched_name"]` and stores the
override; `except KeyError: continue` catches only `KeyError` — any other
exception (in particular `ValueError` from `int`) escapes. -/
def processRow (m : List ((String × String) × String)) (row : CorrectionRow) :
    Except PyErr (List ((String × String) × String)) :=
  let body : Except PyErr (List ((String × String) × String)) :=
    match pyInt (rowGet row "is_actually_correct" (.vint 0)) with
    | .error e => .error e
    | .ok marker =>
        if marker = 1 then
          match rowIndex row "season" with
          | .error e => .error e
          | .ok s =>
              match rowIndex row "club_query" with
              | .error e => .error e
              | .ok c =>
                  match rowIndex row "matched_name" with
                  | .error e => .error e
                  | .ok n =>
                      .ok (dictInsert m (pyStr s, pyStr c) (pyStr n))
        else .ok m
  match body with
  | .error .keyError => .ok m
  | other => other

/-- Lines 25-43 of `src/main.py`: build `MANUAL_MAP` row by row; an uncaught
exception aborts the whole load. -/
def loadCorrections (rows : List CorrectionRow) :
    Except PyErr (List ((String × String) × String)) :=
  rows.foldlM processRow []

/-- Counterexample to C8 as stated: a row whose approval marker is the
non-numeric string "yes" is malformed, but it is not skipped individually —
`int("yes")` raises `ValueError`, which the `except KeyError` handler does
not catch, so the whole load aborts and the valid approved row after it is
lost. -/
theorem corrections_load_abort_counterexample :
    loadCorrections
        [[("is_actually_correct", CellValue.vstr "yes"),
          ("season", CellValue.vstr "24/25"),
          ("club_query", CellValue.vstr "FCB"),
          ("matched_name", CellValue.vstr "FC Barcelona")],
         [("is_actually_correct", CellValue.vint 1),
          ("season", CellValue.vstr "24/25"),
          ("club_query", CellValue.vstr "RM"),
          ("matched_name", CellValue.vstr "Real Madrid")]]
      = Except.error PyErr.valueError := by
  rfl

/-- C8 (amended): a row is included only if its approval marker parses as the
integer 1; an approved row missing one of the required fields (season,
club_query, matched_name) raises `KeyError` and is skipped individually; a
row whose marker parses to anything other than 1 is silently excluded; but a
row whose approval marker does not parse as an integer raises `ValueError`
uncaught, aborting the whole load. -/
theorem corrections_row_characterization
    (m : List ((String × String) × String)) (row : CorrectionRow) :
    (∀ e, pyInt (rowGet row "is_actually_correct" (.vint 0)) = .error e →
        processRow m row = .error e)
    ∧ (∀ n, pyInt (rowGet row "is_actually_correct" (.vint 0)) = .ok n →
        n ≠ 1 → processRow m row = .ok m)
    ∧ (pyInt (rowGet row "is_actually_correct" (.vint 0)) = .ok 1 →
        (dictGet row "season" = none ∨ dictGet row "club_query" = none ∨
         dictGet row "matched_name" = none) →
        processRow m row = .ok m)
    ∧ (∀ s c n, pyInt (rowGet row "is_actually_correct" (.vint 0)) = .ok 1 →
        dictGet row "season" = some s → dictGet row "club_query" = some c →
        dictGet row "matched_name" = some n →
        processRow m row
          = .ok (dictInsert m (pyStr s, pyStr c) (pyStr n))) := by
  refine ⟨?_, ?_, ?_, ?_⟩
  · intro e he
    have hve : e = PyErr.valueError := by
      revert he
      unfold pyInt
      cases rowGet row "is_actually_correct" (.vint 0) with
      | vint n => intro he; cases he
      | vstr s =>
          intro he
          cases hp : parseInt s with
          | some n => simp [hp] at he
          | none =>
              simp [hp] at he
              exact he.symm
      | vnan => intro he; injection he with h; exact h.symm
    subst hve
    unfold processRow
    simp [he]
  · intro n hn hne
    unfold processRow
    simp [hn, hne]
  · intro h1 hmiss
    unfold processRow
    rcases hmiss with hs | hc | hn
    · simp [h1, rowIndex, hs]
    · cases hs : dictGet row "season" with
      | none => simp [h1, rowIndex, hs]
      | some sv => simp [h1, rowIndex, hs, hc]
    · cases hs : dictGet row "season" with
      | none => simp [h1, rowIndex, hs]
      | some sv =>
          cases hc : dictGet row "club_query" with
          | none => simp [h1, rowIndex, hs, hc]
          | some cv => simp [h1, rowIndex, hs, hc, hn]
  · intro s c n h1 hs hc hn
    unfold processRow
    simp [h1, rowIndex, hs, hc, hn]

/-- Witness for the amended C8: the marker "yes" does not parse as an
integer, and processing such a row yields `ValueError` (an abort), applying
the characterization at that concrete row. -/
theorem corrections_row_characterization_witness :
    pyInt (rowGet [("is_actually_correct", CellValue.vstr "yes")]
        "is_actually_correct" (.vint 0)) = Except.error PyErr.valueError
    ∧ processRow [] [("is_actually_correct", CellValue.vstr "yes")]
        = Except.error PyErr.valueError :=
  ⟨rfl, (corrections_row_characterization []
      [("is_actually_correct", CellValue.vstr "yes")]).1
    PyErr.valueError rfl⟩

/-- The (season, club_query) key of an audit record, as used by the
review-gap partition of lines 197-212 of `src/main.py`. -/
def recordKey (r : AuditRecord) : String × String := (r.season, r.club_query)

/-- Lines 198-201: the keys of all corrections rows
`(str(row["season"]), str(row["club_query"]))`, taken from every row of the
corrections file, approved or not (the approval marker is never consulted);
`KeyError` aborts as in Python. -/
def reviewedKeys (rows : List CorrectionRow) :
    Except PyErr (List (String × String)) :=
  rows.mapM (fun r =>
    match rowIndex r "season" with
    | .error e => .error e
    | .ok s =>
        match rowIndex r "club_query" with
        | .error e => .error e
        | .ok c => .ok (pyStr s, pyStr c))

/-- Lines 203-205: the keys of the accumulated log records. -/
def logKeys (logRecs : List AuditRecord) : List (String × String) :=
  logRecs.map recordKey

/-- Line 207: `new_keys = log_keys - reviewed_keys` (set difference; only
membership matters downstream). -/
def newKeys (logRecs : List AuditRecord)
    (reviewed : List (String × String)) : List (String × String) :=
  (logKeys logRecs).filter (fun k => ! reviewed.contains k)

/-- Lines 210-212: keep exactly the log records whose key is in `new_keys`. -/
def newFailures (logRecs : List AuditRecord)
    (reviewed : List (String × String)) : List AuditRecord :=
  logRecs.filter (fun r => (newKeys logRecs reviewed).contains (recordKey r))

/-- C9: a record belongs to the "new, needs review" subset exactly when it is
an accumulated audit record whose (season, queried name) key is not among the
keys of the corrections source's rows — and `reviewedKeys` collects the key
of every corrections row without consulting its approval marker, so a key
present with a rejected (or any) marker value is excluded from "new". -/
theorem audit_new_partition (rows : List CorrectionRow)
    (logRecs : List AuditRecord) (rev : List (String × String))
    (r : AuditRecord) (hrev : reviewedKeys rows = .ok rev) :
    r ∈ newFailures logRecs rev ↔ r ∈ logRecs ∧ recordKey r ∉ rev := by
  unfold newFailures newKeys logKeys
  rw [List.mem_filter]
  constructor
  · rintro ⟨hmem, hcon⟩
    refine ⟨hmem, ?_⟩
    rw [List.contains_eq_any_beq] at hcon
    simp only [List.any_eq_true, beq_iff_eq] at hcon
    obtain ⟨k, hk, rfl⟩ := hcon
    rw [List.mem_filter] at hk
    obtain ⟨-, hk2⟩ := hk
    simp only [Bool.not_eq_true', List.contains_eq_any_beq,
      List.any_eq_false, beq_iff_eq] at hk2
    intro hmemrev
    exact hk2 _ hmemrev rfl
  · rintro ⟨hmem, hnotrev⟩
    refine ⟨hmem, ?_⟩
    rw [List.contains_eq_any_beq]
    simp only [List.any_eq_true, beq_iff_eq]
    refine ⟨recordKey r, ?_, rfl⟩
    rw [List.mem_filter]
    refine ⟨List.mem_map_of_mem recordKey hmem, ?_⟩
    simp only [Bool.not_eq_true', List.contains_eq_any_beq,
      List.any_eq_false, beq_iff_eq]
    intro k hk
    intro hkk
    exact hnotrev (hkk ▸ hk)

/-- Witness for C9: the corrections file holds one rejected row (marker 0)
keyed ("24/25", "FCB"); for a log record keyed ("24/25", "Wolves") the
partition criterion is exactly membership in the log with a key absent from
the corrections rows. -/
theorem audit_new_partition_witness :
    reviewedKeys
        [[("season", CellValue.vstr "24/25"),
          ("club_query", CellValue.vstr "FCB"),
          ("is_actually_correct", CellValue.vint 0)]]
      = Except.ok [("24/25", "FCB")]
    ∧ ((⟨"24/25", "Wolves", "below_threshold", some "Wolverhampton", some 70,
          90⟩ : AuditRecord) ∈
        newFailures
          [⟨"24/25", "FCB", "below_threshold", some "FC Barcelona", some 80,
            90⟩,
           ⟨"24/25", "Wolves", "below_threshold", some "Wolverhampton",
            some 70, 90⟩]
          [("24/25", "FCB")]
        ↔ (⟨"24/25", "Wolves", "below_threshold", some "Wolverhampton",
              some 70, 90⟩ : AuditRecord) ∈
            [⟨"24/25", "FCB", "below_threshold", some "FC Barcelona", some 80,
              90⟩,
             ⟨"24/25", "Wolves", "below_threshold", some "Wolverhampton",
              some 70, 90⟩]
          ∧ recordKey ⟨"24/25", "Wolves", "below_threshold",
              some "Wolverhampton", some 70, 90⟩ ∉ [("24/25", "FCB")]) :=
  ⟨rfl,
    audit_new_partition
      [[("season", CellValue.vstr "24/25"),
        ("club_query", CellValue.vstr "FCB"),
        ("is_actually_correct", CellValue.vint 0)]]
      [⟨"24/25", "FCB", "below_threshold", some "FC Barcelona", some 80, 90⟩,
       ⟨"24/25", "Wolves", "below_threshold", some "Wolverhampton", some 70,
        90⟩]
      [("24/25", "FCB")]
      ⟨"24/25", "Wolves", "below_threshold", some "Wolverhampton", some 70,
        90⟩
      rfl⟩
